import Mathlib

/-!
Verification of the double-entry ledger engine of the accounting app.

The embedding follows `src/server/storage.ts` (class `DatabaseStorage`:
`createJournalEntry`, `updateJournalEntry`, `updateAccount`) and
`src/server/routes.ts` (the `POST /api/journal-entries`,
`PUT /api/journal-entries/:id`, `PUT /api/accounts/:id` handlers), with the
directional balance rule shared with
`src/client/src/lib/accounting-utils.ts` (`calculateAccountBalance`,
`isDebitNormal`).

Monetary amounts are decimal strings with two fractional digits in the
source (columns `decimal(15, 2)`, arithmetic via `parseFloat` and
`toFixed(2)`); they are embedded as integers counted in minor units
(cents), so `0.01` is `1` and the `> 0.01` epsilon of the balance check
is `> 1`.  Database tables keyed by id become functions
`String → Option _`; a transaction body becomes a pure function from the
pre-state to the post-state, and a request handler returns the post-state
together with an `Except` result, so an error response leaves the state
component untouched exactly when the handler returns before reaching the
storage call.
-/

/-- The `account_type` enum of `shared/schema.ts`. -/
inductive AccountType where
  | ASSET
  | LIABILITY
  | EQUITY
  | REVENUE
  | EXPENSE
deriving DecidableEq

/-- A row of the `accounts` table (`shared/schema.ts`), restricted to the
columns the ledger engine reads or writes; `balance` is in cents. -/
structure Account where
  id : String
  companyId : String
  code : String
  name : String
  type : AccountType
  isActive : Bool
  balance : Int
  currency : String
deriving DecidableEq

/-- A journal-entry line as the route handlers forward it to storage
(`storageLines` in `routes.ts`): no id, no `journalEntryId`; amounts in
cents, `exchangeRate` in millionths. -/
structure JournalLine where
  accountId : String
  description : Option String
  debitAmount : Int
  creditAmount : Int
  currency : String
  exchangeRate : Int
deriving DecidableEq

/-- A row of the `journal_entries` table, `date` kept as its ISO string. -/
structure JournalEntryRec where
  id : String
  companyId : String
  entryNumber : String
  date : String
  description : String
  reference : Option String
  totalAmount : Int
  createdBy : String
deriving DecidableEq

/-- The header fields a `POST /api/journal-entries` body carries
(`entryRequestSchema` in `routes.ts`); the caller-supplied `totalAmount`
is later overridden by the server. -/
structure EntryRequest where
  companyId : String
  entryNumber : String
  date : String
  description : String
  reference : Option String
  totalAmount : Int
deriving DecidableEq

/-- The optional header fields a `PUT /api/journal-entries/:id` body
carries (`entryUpdateSchema` in `routes.ts`); `companyId` is absent by
design, so an update can never move an entry across companies. -/
structure EntryUpdateRequest where
  entryNumber : Option String
  date : Option String
  description : Option String
  reference : Option String
  totalAmount : Option Int
deriving DecidableEq

/-- A partial account patch as accepted by `PUT /api/accounts/:id`:
`insertAccountSchema.partial()` omits only `id`, `createdAt` and
`updatedAt` (`shared/schema.ts`), so every other column — `balance`
included — may appear in the patch. -/
structure AccountUpdateRequest where
  companyId : Option String
  code : Option String
  name : Option String
  type : Option AccountType
  isActive : Option Bool
  balance : Option Int
  currency : Option String
deriving DecidableEq

/-- The persistent state the ledger engine touches: the `accounts`,
`journal_entries` and `journal_entry_lines` tables, the last one grouped
by owning entry id. -/
structure StoreState where
  accounts : String → Option Account
  entries : String → Option JournalEntryRec
  entryLines : String → List JournalLine

/-- Point update of a table keyed by id. -/
def updateFun {β : Type} (f : String → β) (k : String) (v : β) : String → β :=
  fun x => if x = k then v else f x

/-- `isDebitNormal` from `accounting-utils.ts`: the account types whose
balance grows with debits (`['ASSET', 'EXPENSE'].includes(type)`). -/
def isDebitNormal : AccountType → Bool
  | .ASSET => true
  | .EXPENSE => true
  | _ => false

/-- `calculateAccountBalance` from `accounting-utils.ts`, the same
directional formula the posting loops of `storage.ts` inline:
`balance + debit - credit` for ASSET/EXPENSE, `balance + credit - debit`
for the other types. -/
def calculateAccountBalance (currentBalance : Int) (accountType : AccountType)
    (debitAmount creditAmount : Int) : Int :=
  if isDebitNormal accountType then currentBalance + debitAmount - creditAmount
  else currentBalance + creditAmount - debitAmount

/-- The reversing formula of `updateJournalEntry` (`storage.ts`):
`newBalance -= debit - credit` for ASSET/EXPENSE, `-= credit - debit`
otherwise. -/
def reverseAccountBalance (currentBalance : Int) (accountType : AccountType)
    (debitAmount creditAmount : Int) : Int :=
  if isDebitNormal accountType then currentBalance - (debitAmount - creditAmount)
  else currentBalance - (creditAmount - debitAmount)

/-- Net signed effect of one line on an account of the given type. -/
def lineDelta (t : AccountType) (l : JournalLine) : Int :=
  if isDebitNormal t then l.debitAmount - l.creditAmount
  else l.creditAmount - l.debitAmount

/-- Net signed effect of a list of lines on the account `aid`, as applied
by the posting loops (lines naming other accounts contribute nothing). -/
def netDelta (t : AccountType) (aid : String) (lines : List JournalLine) : Int :=
  (lines.map (fun l => if l.accountId = aid then lineDelta t l else 0)).sum

/-- One iteration of the forward posting loop of `createJournalEntry` /
`updateJournalEntry`: read the line's account; if the row exists, write
back the directional balance; if it does not (`if (account)` guard),
silently do nothing. -/
def applyLineDelta (accs : String → Option Account) (l : JournalLine) :
    String → Option Account :=
  match accs l.accountId with
  | none => accs
  | some a =>
      updateFun accs l.accountId
        (some { a with balance :=
          calculateAccountBalance a.balance a.type l.debitAmount l.creditAmount })

/-- One iteration of the reversing loop of `updateJournalEntry`. -/
def reverseLineDelta (accs : String → Option Account) (l : JournalLine) :
    String → Option Account :=
  match accs l.accountId with
  | none => accs
  | some a =>
      updateFun accs l.accountId
        (some { a with balance :=
          reverseAccountBalance a.balance a.type l.debitAmount l.creditAmount })

/-- The whole forward posting loop (`for (const line of lines) ...`). -/
def applyLines (accs : String → Option Account) (lines : List JournalLine) :
    String → Option Account :=
  lines.foldl applyLineDelta accs

/-- The whole reversing loop of `updateJournalEntry`. -/
def reverseLines (accs : String → Option Account) (lines : List JournalLine) :
    String → Option Account :=
  lines.foldl reverseLineDelta accs

/-- A line with debit and credit roles swapped; reversing a line is
applying its swap forward. -/
def swapLine (l : JournalLine) : JournalLine :=
  { l with debitAmount := l.creditAmount, creditAmount := l.debitAmount }

/-- Sum of the debit column of a line list (`lines.reduce(..., 0)` over
`debitAmount` in `routes.ts`). -/
def sumDebits (lines : List JournalLine) : Int :=
  (lines.map (fun l => l.debitAmount)).sum

/-- Sum of the credit column of a line list. -/
def sumCredits (lines : List JournalLine) : Int :=
  (lines.map (fun l => l.creditAmount)).sum

/-- The `0.01` tolerance of the balance check, in cents. -/
def balanceEpsilon : Int := 1

/-- The error responses the journal-entry route handlers can produce,
named after the spec's error taxonomy (section 7); each corresponds to one
`res.status(400/404).json(...)` site in `routes.ts`. -/
inductive EntryError where
  | tooFewLines
  | negativeAmount
  | ambiguousLine
  | emptyLine
  | unbalanced (totalDebits totalCredits : Int)
  | unknownAccount (accountId : String)
  | notFound
deriving DecidableEq

/-- The three per-line checks of the `for (const line of lines)` loop in
both journal-entry route handlers, in the source's order within one line:
negative, then both-positive, then both-zero. -/
def checkLine (l : JournalLine) : Option EntryError :=
  if l.debitAmount < 0 ∨ l.creditAmount < 0 then some .negativeAmount
  else if 0 < l.debitAmount ∧ 0 < l.creditAmount then some .ambiguousLine
  else if l.debitAmount = 0 ∧ l.creditAmount = 0 then some .emptyLine
  else none

/-- The per-line validation loop: lines are scanned in order, and the
first line that violates any of its three checks decides the error. -/
def checkLines : List JournalLine → Option EntryError
  | [] => none
  | l :: ls =>
      match checkLine l with
      | some e => some e
      | none => checkLines ls

/-- Whether a line's account id passes the route's ownership check: it is
in the set built from `getAccountsByCompany(companyId)`. -/
def accountBelongs (accs : String → Option Account) (companyId aid : String) : Bool :=
  match accs aid with
  | some a => a.companyId = companyId
  | none => false

/-- The `for (const accountId of accountIds)` existence/ownership loop of
the route handlers; first failing account id decides the error. -/
def checkAccounts (accs : String → Option Account) (companyId : String) :
    List JournalLine → Option EntryError
  | [] => none
  | l :: ls =>
      if accountBelongs accs companyId l.accountId then checkAccounts accs companyId ls
      else some (.unknownAccount l.accountId)

/-- The validation steps both handlers run after the line-count check:
per-line checks, then the epsilon-tolerant balance check
(`Math.abs(totalDebits - totalCredits) > 0.01`), then account
existence/ownership. -/
def validateLinesRest (accs : String → Option Account) (companyId : String)
    (lines : List JournalLine) : Option EntryError :=
  match checkLines lines with
  | some e => some e
  | none =>
      if balanceEpsilon < |sumDebits lines - sumCredits lines| then
        some (.unbalanced (sumDebits lines) (sumCredits lines))
      else checkAccounts accs companyId lines

/-- Full validation of `POST /api/journal-entries`: the zod
`.min(2)` line-count check, then `validateLinesRest`. -/
def validateEntryLines (accs : String → Option Account) (companyId : String)
    (lines : List JournalLine) : Option EntryError :=
  if lines.length < 2 then some .tooFewLines
  else validateLinesRest accs companyId lines

/-- `DatabaseStorage.createJournalEntry` (`storage.ts`): inside one
transaction, insert the entry row (its id freshly generated by the
database, here a parameter), insert all lines under that id, then run the
forward posting loop over the lines. -/
def createJournalEntry (s : StoreState) (newId : String) (entry : JournalEntryRec)
    (lines : List JournalLine) : StoreState × JournalEntryRec :=
  let newEntry := { entry with id := newId }
  ({ accounts := applyLines s.accounts lines
     entries := updateFun s.entries newId (some newEntry)
     entryLines := updateFun s.entryLines newId lines }, newEntry)

/-- Merge of `tx.update(journalEntries).set({ ...entryUpdates, ... })`:
fields present in the patch replace the stored ones; `id`, `companyId` and
`createdBy` are never in the patch, and the route always overrides
`totalAmount` with the computed debit total. -/
def applyEntryUpdates (e : JournalEntryRec) (u : EntryUpdateRequest)
    (totalOverride : Int) : JournalEntryRec :=
  { e with
    entryNumber := u.entryNumber.getD e.entryNumber
    date := u.date.getD e.date
    description := u.description.getD e.description
    reference := match u.reference with
      | some r => some r
      | none => e.reference
    totalAmount := totalOverride }

/-- `DatabaseStorage.updateJournalEntry` (`storage.ts`): inside one
transaction, load the entry (throw `'Journal entry not found'` if absent),
load its lines, run the reversing loop over them, update the header,
replace the line set, then run the forward loop over the new lines. -/
def updateJournalEntry (s : StoreState) (id : String) (u : EntryUpdateRequest)
    (totalOverride : Int) (newLines : List JournalLine) :
    Except String (StoreState × JournalEntryRec) :=
  match s.entries id with
  | none => .error "Journal entry not found"
  | some existingEntry =>
      let existingLines := s.entryLines id
      let updatedEntry := applyEntryUpdates existingEntry u totalOverride
      .ok ({ accounts := applyLines (reverseLines s.accounts existingLines) newLines
             entries := updateFun s.entries id (some updatedEntry)
             entryLines := updateFun s.entryLines id newLines }, updatedEntry)

/-- The `POST /api/journal-entries` handler (`routes.ts`): validate, and
on success build the header with server-computed `totalAmount`
(`totalDebits.toFixed(2)`, overriding the caller's value) and
`createdBy = 'system_user_id_1'`, then call the storage transaction.  An
error response is produced before the storage call, so the state component
of the result is then the untouched input state. -/
def postJournalEntry (s : StoreState) (newId : String) (entry : EntryRequest)
    (lines : List JournalLine) : StoreState × Except EntryError JournalEntryRec :=
  match validateEntryLines s.accounts entry.companyId lines with
  | some e => (s, .error e)
  | none =>
      let entryWithCreatedBy : JournalEntryRec :=
        { id := ""
          companyId := entry.companyId
          entryNumber := entry.entryNumber
          date := entry.date
          description := entry.description
          reference := entry.reference
          totalAmount := sumDebits lines
          createdBy := "system_user_id_1" }
      let r := createJournalEntry s newId entryWithCreatedBy lines
      (r.1, .ok r.2)

/-- The `PUT /api/journal-entries/:id` handler (`routes.ts`): zod parses
the payload first (its `.min(2)` rejecting short line lists), then the
entry is looked up (404 if absent), then the same per-line / balance /
ownership checks run against the stored entry's company, and only then is
the storage transaction invoked with `totalAmount` overridden by the
computed debit total. -/
def putJournalEntry (s : StoreState) (id : String) (u : EntryUpdateRequest)
    (lines : List JournalLine) : StoreState × Except EntryError JournalEntryRec :=
  if lines.length < 2 then (s, .error .tooFewLines)
  else
    match s.entries id with
    | none => (s, .error .notFound)
    | some existingEntry =>
        match validateLinesRest s.accounts existingEntry.companyId lines with
        | some e => (s, .error e)
        | none =>
            match updateJournalEntry s id u (sumDebits lines) lines with
            | .ok r => (r.1, .ok r.2)
            | .error _ => (s, .error .notFound)

/-- Merge of `db.update(accounts).set({ ...account, ... })` for a patch
parsed by `insertAccountSchema.partial()`: every supplied field — balance
included — replaces the stored one. -/
def applyAccountUpdates (a : Account) (u : AccountUpdateRequest) : Account :=
  { a with
    companyId := u.companyId.getD a.companyId
    code := u.code.getD a.code
    name := u.name.getD a.name
    type := u.type.getD a.type
    isActive := u.isActive.getD a.isActive
    balance := u.balance.getD a.balance
    currency := u.currency.getD a.currency }

/-- `DatabaseStorage.updateAccount` as reached through
`PUT /api/accounts/:id`: a plain row update; if no row matches the id,
nothing changes. -/
def updateAccount (s : StoreState) (id : String) (u : AccountUpdateRequest) :
    StoreState :=
  match s.accounts id with
  | none => s
  | some a =>
      { s with accounts := updateFun s.accounts id (some (applyAccountUpdates a u)) }

/-- Contribution of one account slot to a per-type balance sum of
`getAccountBalances` (`storage.ts`): its balance when it exists, belongs
to the company and has the type, else nothing. -/
def accountContribution (cid : String) (t : AccountType) : Option Account → Int
  | some a => if a.companyId = cid ∧ a.type = t then a.balance else 0
  | none => 0

/-- The per-type totals of `getAccountBalances`, summed over a list of
account ids representing the company's chart of accounts. -/
def sumBalancesOfType (accs : String → Option Account) (ids : List String)
    (cid : String) (t : AccountType) : Int :=
  (ids.map (fun aid => accountContribution cid t (accs aid))).sum

/-- The accounting equation of the spec (section 8):
assets = liabilities + equity + revenue − expenses. -/
def accountingEquationHolds (accs : String → Option Account) (ids : List String)
    (cid : String) : Prop :=
  sumBalancesOfType accs ids cid .ASSET =
    sumBalancesOfType accs ids cid .LIABILITY + sumBalancesOfType accs ids cid .EQUITY
    + sumBalancesOfType accs ids cid .REVENUE - sumBalancesOfType accs ids cid .EXPENSE

/-- Signed defect of the accounting equation; the equation holds exactly
when the gap is zero. -/
def equationGap (accs : String → Option Account) (ids : List String)
    (cid : String) : Int :=
  sumBalancesOfType accs ids cid .ASSET + sumBalancesOfType accs ids cid .EXPENSE
    - sumBalancesOfType accs ids cid .LIABILITY - sumBalancesOfType accs ids cid .EQUITY
    - sumBalancesOfType accs ids cid .REVENUE

/-- `ids` is a duplicate-free list containing every account of company
`cid`, i.e. the rows `getAccountsByCompany(cid)` returns. -/
def companyChart (accs : String → Option Account) (ids : List String)
    (cid : String) : Prop :=
  ids.Nodup ∧ ∀ aid a, accs aid = some a → a.companyId = cid → aid ∈ ids

/-- Every stored journal entry has an exactly balanced stored line set,
and each of its lines references an existing account of the entry's
company. -/
def storedEntriesOk (s : StoreState) : Prop :=
  ∀ eid e, s.entries eid = some e →
    sumDebits (s.entryLines eid) = sumCredits (s.entryLines eid) ∧
    ∀ l ∈ s.entryLines eid,
      ∃ a, s.accounts l.accountId = some a ∧ a.companyId = e.companyId

/-- Invariant carried along sequences of ledger operations, observed from
the chart `ids` of company `cid`. -/
def LedgerInvariant (ids : List String) (cid : String) (s : StoreState) : Prop :=
  companyChart s.accounts ids cid ∧ accountingEquationHolds s.accounts ids cid ∧
    storedEntriesOk s

/-- One operation the HTTP layer accepts: a Create or an Update whose
handler returned a success response. -/
inductive AcceptedStep : StoreState → StoreState → Prop where
  | create (s s' : StoreState) (newId : String) (entry : EntryRequest)
      (lines : List JournalLine) (e' : JournalEntryRec) :
      postJournalEntry s newId entry lines = (s', .ok e') → AcceptedStep s s'
  | update (s s' : StoreState) (id : String) (u : EntryUpdateRequest)
      (lines : List JournalLine) (e' : JournalEntryRec) :
      putJournalEntry s id u lines = (s', .ok e') → AcceptedStep s s'

/-- An accepted operation whose line set is exactly balanced, not merely
within the acceptance epsilon. -/
inductive ExactStep : StoreState → StoreState → Prop where
  | create (s s' : StoreState) (newId : String) (entry : EntryRequest)
      (lines : List JournalLine) (e' : JournalEntryRec) :
      postJournalEntry s newId entry lines = (s', .ok e') →
      sumDebits lines = sumCredits lines → ExactStep s s'
  | update (s s' : StoreState) (id : String) (u : EntryUpdateRequest)
      (lines : List JournalLine) (e' : JournalEntryRec) :
      putJournalEntry s id u lines = (s', .ok e') →
      sumDebits lines = sumCredits lines → ExactStep s s'

/-- A journal line over the given account with the given amounts and
default currency fields, as the line request schema defaults them. -/
def mkLine (aid : String) (d c : Int) : JournalLine :=
  { accountId := aid, description := none, debitAmount := d, creditAmount := c,
    currency := "USD", exchangeRate := 1000000 }

/-- Concrete ASSET account used in witnesses: balance 100.00. -/
def cashAccount : Account :=
  { id := "cash", companyId := "c1", code := "1000", name := "Cash",
    type := .ASSET, isActive := true, balance := 10000, currency := "USD" }

/-- Concrete REVENUE account used in witnesses. -/
def revenueAccount : Account :=
  { id := "rev", companyId := "c1", code := "4000", name := "Revenue",
    type := .REVENUE, isActive := true, balance := 0, currency := "USD" }

/-- Concrete LIABILITY account at 100.00 used in witnesses. -/
def loanAccount : Account :=
  { id := "loan", companyId := "c1", code := "2000", name := "Loan",
    type := .LIABILITY, isActive := true, balance := 10000, currency := "USD" }

/-- Chart of company `c1` used in witnesses. -/
def sampleAccounts : String → Option Account := fun aid =>
  if aid = "cash" then some cashAccount
  else if aid = "rev" then some revenueAccount
  else if aid = "loan" then some loanAccount
  else none

/-- Store with the sample chart, no entries, no lines. -/
def sampleState : StoreState :=
  { accounts := sampleAccounts, entries := fun _ => none, entryLines := fun _ => [] }

/-- Completely empty store. -/
def emptyState : StoreState :=
  { accounts := fun _ => none, entries := fun _ => none, entryLines := fun _ => [] }

/-- `cashAccount` at its initial balance 0, for equation counterexamples. -/
def zeroCash : Account := { cashAccount with balance := 0 }

/-- `revenueAccount` at its initial balance 0. -/
def zeroRev : Account := { revenueAccount with balance := 0 }

/-- Store of company `c1` at its initial account balances (all zero), no
entries posted yet. -/
def zeroState : StoreState :=
  { accounts := fun aid =>
      if aid = "cash" then some zeroCash else if aid = "rev" then some zeroRev else none
    entries := fun _ => none
    entryLines := fun _ => [] }

/-- A concrete POST request header; its caller-supplied `totalAmount` 999
is overridden by the server. -/
def sampleRequest : EntryRequest :=
  { companyId := "c1", entryNumber := "JE-2024-001", date := "2024-01-15",
    description := "sample entry", reference := none, totalAmount := 999 }

/-- A concrete stored entry header used when seeding states. -/
def sampleEntryRec : JournalEntryRec :=
  { id := "", companyId := "c1", entryNumber := "JE-2024-001", date := "2024-01-15",
    description := "sample entry", reference := none, totalAmount := 0,
    createdBy := "system_user_id_1" }

/-- A PUT header patch carrying no field changes. -/
def noHeaderUpdates : EntryUpdateRequest :=
  { entryNumber := none, date := none, description := none, reference := none,
    totalAmount := none }

/-- An account patch that only sets `balance` to 999 cents. -/
def balancePatch : AccountUpdateRequest :=
  { companyId := none, code := none, name := none, type := none,
    isActive := none, balance := some 999, currency := none }

/-- The foreign key on `journal_entry_lines.account_id`
(`references(() => accounts.id)` in `shared/schema.ts`): every inserted
line must name an existing account row, in any company. -/
def linesSatisfyFK (accs : String → Option Account)
    (lines : List JournalLine) : Bool :=
  lines.all (fun l => (accs l.accountId).isSome)

/-- `DatabaseStorage.createJournalEntry` including the database's
foreign-key constraint: if any line names a missing account, the
`tx.insert(journalEntryLines)` call violates
`journal_entry_lines.account_id → accounts.id` and the whole
transaction rolls back — nothing persisted, no balance touched, the
error surfaced; otherwise the transaction commits as
`createJournalEntry`.  The `if (account)` guard of the balance loop
therefore never meets a missing account. -/
def createJournalEntryTx (s : StoreState) (newId : String)
    (entry : JournalEntryRec) (lines : List JournalLine) :
    StoreState × Except String JournalEntryRec :=
  if linesSatisfyFK s.accounts lines then
    ((createJournalEntry s newId entry lines).1,
     .ok (createJournalEntry s newId entry lines).2)
  else (s, .error "violates foreign key constraint journal_entry_lines_account_id_fkey")

/-- `DatabaseStorage.updateJournalEntry` including the same foreign-key
constraint on the new-line insert: a replacement line naming a missing
account aborts the transaction after the reversing loop has run, rolling
its balance writes back too, so the store is left exactly as before the
call. -/
def updateJournalEntryTx (s : StoreState) (id : String)
    (u : EntryUpdateRequest) (totalOverride : Int)
    (newLines : List JournalLine) :
    StoreState × Except String JournalEntryRec :=
  match s.entries id with
  | none => (s, .error "Journal entry not found")
  | some _ =>
      if linesSatisfyFK s.accounts newLines then
        match updateJournalEntry s id u totalOverride newLines with
        | .ok r => (r.1, .ok r.2)
        | .error msg => (s, .error msg)
      else
        (s, .error "violates foreign key constraint journal_entry_lines_account_id_fkey")

theorem updateFun_same {β : Type} (f : String → β) (k : String) (v : β) :
    updateFun f k v k = v := by
  simp [updateFun]

theorem updateFun_other {β : Type} (f : String → β) (k : String) (v : β)
    (x : String) (hx : x ≠ k) : updateFun f k v x = f x := by
  simp [updateFun, hx]

theorem applyLineDelta_of_none (accs : String → Option Account) (l : JournalLine)
    (h : accs l.accountId = none) : applyLineDelta accs l = accs := by
  unfold applyLineDelta
  rw [h]

theorem applyLineDelta_of_some (accs : String → Option Account) (l : JournalLine)
    (a : Account) (h : accs l.accountId = some a) :
    applyLineDelta accs l =
      updateFun accs l.accountId
        (some { a with balance :=
          calculateAccountBalance a.balance a.type l.debitAmount l.creditAmount }) := by
  unfold applyLineDelta
  rw [h]

theorem reverseLineDelta_of_none (accs : String → Option Account) (l : JournalLine)
    (h : accs l.accountId = none) : reverseLineDelta accs l = accs := by
  unfold reverseLineDelta
  rw [h]

theorem reverseLineDelta_of_some (accs : String → Option Account) (l : JournalLine)
    (a : Account) (h : accs l.accountId = some a) :
    reverseLineDelta accs l =
      updateFun accs l.accountId
        (some { a with balance :=
          reverseAccountBalance a.balance a.type l.debitAmount l.creditAmount }) := by
  unfold reverseLineDelta
  rw [h]

theorem calculateAccountBalance_eq_add_lineDelta (b : Int) (t : AccountType)
    (l : JournalLine) :
    calculateAccountBalance b t l.debitAmount l.creditAmount = b + lineDelta t l := by
  unfold calculateAccountBalance lineDelta
  cases h : isDebitNormal t <;> simp [h] <;> omega

theorem reverseAccountBalance_eq_sub_lineDelta (b : Int) (t : AccountType)
    (l : JournalLine) :
    reverseAccountBalance b t l.debitAmount l.creditAmount = b - lineDelta t l := by
  unfold reverseAccountBalance lineDelta
  cases h : isDebitNormal t <;> simp [h]

theorem netDelta_nil (t : AccountType) (aid : String) : netDelta t aid [] = 0 := rfl

theorem netDelta_cons (t : AccountType) (aid : String) (l : JournalLine)
    (ls : List JournalLine) :
    netDelta t aid (l :: ls) =
      (if l.accountId = aid then lineDelta t l else 0) + netDelta t aid ls := by
  simp [netDelta]

/-- Accounts the posting loop never sees stay absent. -/
theorem applyLines_none (lines : List JournalLine)
    (accs : String → Option Account) (aid : String) (h : accs aid = none) :
    applyLines accs lines aid = none := by
  induction lines generalizing accs with
  | nil => exact h
  | cons l ls ih =>
      show applyLines (applyLineDelta accs l) ls aid = none
      apply ih
      cases hacc : accs l.accountId with
      | none => rw [applyLineDelta_of_none _ _ hacc]; exact h
      | some a =>
          rw [applyLineDelta_of_some _ _ _ hacc]
          by_cases hl : aid = l.accountId
          · rw [hl] at h; rw [h] at hacc; cases hacc
          · rw [updateFun_other _ _ _ _ hl]; exact h

/-- Main forward lemma: the posting loop changes an existing account's
balance by exactly the net directional delta of the lines naming it, and
changes nothing else about the row. -/
theorem applyLines_some (lines : List JournalLine)
    (accs : String → Option Account) (aid : String) (a : Account)
    (h : accs aid = some a) :
    applyLines accs lines aid =
      some { a with balance := a.balance + netDelta a.type aid lines } := by
  induction lines generalizing accs a with
  | nil => simpa [applyLines, netDelta_nil] using h
  | cons l ls ih =>
      show applyLines (applyLineDelta accs l) ls aid = _
      rw [netDelta_cons]
      cases hacc : accs l.accountId with
      | none =>
          rw [applyLineDelta_of_none _ _ hacc]
          by_cases hl : l.accountId = aid
          · rw [hl, h] at hacc; cases hacc
          · rw [ih accs a h]
            simp [hl]
      | some b =>
          rw [applyLineDelta_of_some _ _ _ hacc]
          by_cases hl : l.accountId = aid
          · have hba : b = a := by
              rw [hl, h] at hacc
              exact (Option.some.inj hacc).symm
            subst hba
            have hupd :
                updateFun accs l.accountId
                  (some { b with balance :=
                    calculateAccountBalance b.balance b.type l.debitAmount l.creditAmount })
                  aid = some { b with balance := b.balance + lineDelta b.type l } := by
              rw [← hl, updateFun_same, calculateAccountBalance_eq_add_lineDelta]
            rw [ih _ _ hupd]
            simp [hl]
            omega
          · have hne : aid ≠ l.accountId := fun hc => hl hc.symm
            have hupd :
                updateFun accs l.accountId
                  (some { b with balance :=
                    calculateAccountBalance b.balance b.type l.debitAmount l.creditAmount })
                  aid = some a := by
              rw [updateFun_other _ _ _ _ hne]; exact h
            rw [ih _ _ hupd]
            simp [hl]

/-- Accounts the reversing loop never sees stay absent. -/
theorem reverseLines_none (lines : List JournalLine)
    (accs : String → Option Account) (aid : String) (h : accs aid = none) :
    reverseLines accs lines aid = none := by
  induction lines generalizing accs with
  | nil => exact h
  | cons l ls ih =>
      show reverseLines (reverseLineDelta accs l) ls aid = none
      apply ih
      cases hacc : accs l.accountId with
      | none => rw [reverseLineDelta_of_none _ _ hacc]; exact h
      | some a =>
          rw [reverseLineDelta_of_some _ _ _ hacc]
          by_cases hl : aid = l.accountId
          · rw [hl] at h; rw [h] at hacc; cases hacc
          · rw [updateFun_other _ _ _ _ hl]; exact h

/-- Main reversing lemma: the reversing loop subtracts exactly the net
directional delta it once added. -/
theorem reverseLines_some (lines : List JournalLine)
    (accs : String → Option Account) (aid : String) (a : Account)
    (h : accs aid = some a) :
    reverseLines accs lines aid =
      some { a with balance := a.balance - netDelta a.type aid lines } := by
  induction lines generalizing accs a with
  | nil => simpa [reverseLines, netDelta_nil] using h
  | cons l ls ih =>
      show reverseLines (reverseLineDelta accs l) ls aid = _
      rw [netDelta_cons]
      cases hacc : accs l.accountId with
      | none =>
          rw [reverseLineDelta_of_none _ _ hacc]
          by_cases hl : l.accountId = aid
          · rw [hl, h] at hacc; cases hacc
          · rw [ih accs a h]
            simp [hl]
      | some b =>
          rw [reverseLineDelta_of_some _ _ _ hacc]
          by_cases hl : l.accountId = aid
          · have hba : b = a := by
              rw [hl, h] at hacc
              exact (Option.some.inj hacc).symm
            subst hba
            have hupd :
                updateFun accs l.accountId
                  (some { b with balance :=
                    reverseAccountBalance b.balance b.type l.debitAmount l.creditAmount })
                  aid = some { b with balance := b.balance - lineDelta b.type l } := by
              rw [← hl, updateFun_same, reverseAccountBalance_eq_sub_lineDelta]
            rw [ih _ _ hupd]
            simp [hl]
            omega
          · have hne : aid ≠ l.accountId := fun hc => hl hc.symm
            have hupd :
                updateFun accs l.accountId
                  (some { b with balance :=
                    reverseAccountBalance b.balance b.type l.debitAmount l.creditAmount })
                  aid = some a := by
              rw [updateFun_other _ _ _ _ hne]; exact h
            rw [ih _ _ hupd]
            simp [hl]

/-- Existence, company and type of an account survive the forward loop. -/
theorem applyLines_pres_fwd (lines : List JournalLine)
    (accs : String → Option Account) (aid : String) (a : Account)
    (h : accs aid = some a) :
    ∃ a', applyLines accs lines aid = some a' ∧
      a'.companyId = a.companyId ∧ a'.type = a.type := by
  refine ⟨_, applyLines_some lines accs aid a h, rfl, rfl⟩

/-- The forward loop creates no account and changes no company or type. -/
theorem applyLines_pres_inv (lines : List JournalLine)
    (accs : String → Option Account) (aid : String) (a' : Account)
    (h : applyLines accs lines aid = some a') :
    ∃ a, accs aid = some a ∧ a'.companyId = a.companyId ∧ a'.type = a.type := by
  cases hacc : accs aid with
  | none => rw [applyLines_none lines accs aid hacc] at h; cases h
  | some a =>
      rw [applyLines_some lines accs aid a hacc] at h
      refine ⟨a, rfl, ?_, ?_⟩ <;> rw [← Option.some.inj h]

theorem reverseLines_pres_fwd (lines : List JournalLine)
    (accs : String → Option Account) (aid : String) (a : Account)
    (h : accs aid = some a) :
    ∃ a', reverseLines accs lines aid = some a' ∧
      a'.companyId = a.companyId ∧ a'.type = a.type := by
  refine ⟨_, reverseLines_some lines accs aid a h, rfl, rfl⟩

theorem reverseLines_pres_inv (lines : List JournalLine)
    (accs : String → Option Account) (aid : String) (a' : Account)
    (h : reverseLines accs lines aid = some a') :
    ∃ a, accs aid = some a ∧ a'.companyId = a.companyId ∧ a'.type = a.type := by
  cases hacc : accs aid with
  | none => rw [reverseLines_none lines accs aid hacc] at h; cases h
  | some a =>
      rw [reverseLines_some lines accs aid a hacc] at h
      refine ⟨a, rfl, ?_, ?_⟩ <;> rw [← Option.some.inj h]

theorem reverseAccountBalance_eq_swap (b : Int) (t : AccountType) (d c : Int) :
    reverseAccountBalance b t d c = calculateAccountBalance b t c d := by
  unfold reverseAccountBalance calculateAccountBalance
  cases h : isDebitNormal t <;> simp [h] <;> omega

/-- Reversing one line is applying its debit/credit swap forward. -/
theorem reverseLineDelta_eq_swap (accs : String → Option Account) (l : JournalLine) :
    reverseLineDelta accs l = applyLineDelta accs (swapLine l) := by
  cases hacc : accs l.accountId with
  | none =>
      rw [reverseLineDelta_of_none _ _ hacc, applyLineDelta_of_none]
      exact hacc
  | some a =>
      have hacc' : accs (swapLine l).accountId = some a := hacc
      rw [reverseLineDelta_of_some _ _ _ hacc,
        applyLineDelta_of_some accs (swapLine l) a hacc']
      simp [swapLine, reverseAccountBalance_eq_swap]

/-- The whole reversing loop is the forward loop over the swapped lines. -/
theorem reverseLines_eq_swap (lines : List JournalLine)
    (accs : String → Option Account) :
    reverseLines accs lines = applyLines accs (lines.map swapLine) := by
  induction lines generalizing accs with
  | nil => rfl
  | cons l ls ih =>
      show reverseLines (reverseLineDelta accs l) ls = _
      rw [ih, reverseLineDelta_eq_swap]
      rfl

theorem sumDebits_nil : sumDebits [] = 0 := rfl

theorem sumDebits_cons (l : JournalLine) (ls : List JournalLine) :
    sumDebits (l :: ls) = l.debitAmount + sumDebits ls := by
  simp [sumDebits]

theorem sumCredits_nil : sumCredits [] = 0 := rfl

theorem sumCredits_cons (l : JournalLine) (ls : List JournalLine) :
    sumCredits (l :: ls) = l.creditAmount + sumCredits ls := by
  simp [sumCredits]

theorem sumDebits_map_swap (lines : List JournalLine) :
    sumDebits (lines.map swapLine) = sumCredits lines := by
  induction lines with
  | nil => rfl
  | cons l ls ih => simp [sumDebits_cons, sumCredits_cons, swapLine, ih]

theorem sumCredits_map_swap (lines : List JournalLine) :
    sumCredits (lines.map swapLine) = sumDebits lines := by
  induction lines with
  | nil => rfl
  | cons l ls ih => simp [sumDebits_cons, sumCredits_cons, swapLine, ih]

theorem sum_map_congr {α : Type} (l : List α) (f g : α → Int)
    (h : ∀ x ∈ l, f x = g x) : (l.map f).sum = (l.map g).sum := by
  induction l with
  | nil => rfl
  | cons x xs ih =>
      simp only [List.map_cons, List.sum_cons]
      rw [h x (List.mem_cons_self x xs), ih (fun y hy => h y (List.mem_cons_of_mem x hy))]

/-- Updating an account outside the summed chart does not change a sum. -/
theorem sumBalancesOfType_update_not_mem (accs : String → Option Account)
    (ids : List String) (cid : String) (t : AccountType) (aid : String)
    (v : Option Account) (hmem : aid ∉ ids) :
    sumBalancesOfType (updateFun accs aid v) ids cid t =
      sumBalancesOfType accs ids cid t := by
  unfold sumBalancesOfType
  apply sum_map_congr
  intro x hx
  have hne : x ≠ aid := fun hc => hmem (hc ▸ hx)
  rw [updateFun_other _ _ _ _ hne]

/-- Updating an account inside a duplicate-free chart shifts a sum by the
difference of its contributions. -/
theorem sumBalancesOfType_update_mem (accs : String → Option Account)
    (ids : List String) (cid : String) (t : AccountType) (aid : String)
    (v : Option Account) (hnd : ids.Nodup) (hmem : aid ∈ ids) :
    sumBalancesOfType (updateFun accs aid v) ids cid t =
      sumBalancesOfType accs ids cid t
        + accountContribution cid t v - accountContribution cid t (accs aid) := by
  induction ids with
  | nil => cases hmem
  | cons x xs ih =>
      rw [List.nodup_cons] at hnd
      unfold sumBalancesOfType
      simp only [List.map_cons, List.sum_cons]
      by_cases hx : aid = x
      · subst hx
        rw [updateFun_same]
        have : sumBalancesOfType (updateFun accs aid v) xs cid t =
            sumBalancesOfType accs xs cid t :=
          sumBalancesOfType_update_not_mem accs xs cid t aid v hnd.1
        unfold sumBalancesOfType at this
        rw [this]
        omega
      · have hmem' : aid ∈ xs := by
          cases List.mem_cons.mp hmem with
          | inl h => exact absurd h hx
          | inr h => exact h
        have := ih hnd.2 hmem'
        unfold sumBalancesOfType at this
        rw [updateFun_other _ _ _ _ (fun hc => hx hc.symm), this]
        omega

theorem accountingEquationHolds_iff_gap (accs : String → Option Account)
    (ids : List String) (cid : String) :
    accountingEquationHolds accs ids cid ↔ equationGap accs ids cid = 0 := by
  unfold accountingEquationHolds equationGap
  omega

/-- Gap-signed contribution difference of one directional write: the
rewritten row moves the equation gap by `debit − credit` when the account
belongs to the observed company. -/
theorem contribution_gap_diff (cid : String) (a : Account) (l : JournalLine) :
    accountContribution cid .ASSET
        (some { a with balance :=
          calculateAccountBalance a.balance a.type l.debitAmount l.creditAmount })
      - accountContribution cid .ASSET (some a)
    + (accountContribution cid .EXPENSE
        (some { a with balance :=
          calculateAccountBalance a.balance a.type l.debitAmount l.creditAmount })
      - accountContribution cid .EXPENSE (some a))
    - (accountContribution cid .LIABILITY
        (some { a with balance :=
          calculateAccountBalance a.balance a.type l.debitAmount l.creditAmount })
      - accountContribution cid .LIABILITY (some a))
    - (accountContribution cid .EQUITY
        (some { a with balance :=
          calculateAccountBalance a.balance a.type l.debitAmount l.creditAmount })
      - accountContribution cid .EQUITY (some a))
    - (accountContribution cid .REVENUE
        (some { a with balance :=
          calculateAccountBalance a.balance a.type l.debitAmount l.creditAmount })
      - accountContribution cid .REVENUE (some a))
    = if a.companyId = cid then l.debitAmount - l.creditAmount else 0 := by
  by_cases hcid : a.companyId = cid
  · cases ht : a.type <;>
      simp [accountContribution, calculateAccountBalance, isDebitNormal, hcid, ht] <;>
      omega
  · simp [accountContribution, hcid]

/-- Applying one line moves the equation gap by `debit − credit` when the
line's account exists, belongs to the observed company and is in its
chart, and leaves it unchanged otherwise. -/
theorem equationGap_applyLineDelta (accs : String → Option Account)
    (l : JournalLine) (ids : List String) (cid : String) (hnd : ids.Nodup) :
    equationGap (applyLineDelta accs l) ids cid =
      equationGap accs ids cid +
        (match accs l.accountId with
         | some a =>
             if a.companyId = cid ∧ l.accountId ∈ ids then
               l.debitAmount - l.creditAmount
             else 0
         | none => 0) := by
  cases hacc : accs l.accountId with
  | none =>
      rw [applyLineDelta_of_none _ _ hacc]
      simp
  | some a =>
      rw [applyLineDelta_of_some _ _ _ hacc]
      by_cases hmem : l.accountId ∈ ids
      · unfold equationGap
        rw [sumBalancesOfType_update_mem accs ids cid .ASSET _ _ hnd hmem,
          sumBalancesOfType_update_mem accs ids cid .EXPENSE _ _ hnd hmem,
          sumBalancesOfType_update_mem accs ids cid .LIABILITY _ _ hnd hmem,
          sumBalancesOfType_update_mem accs ids cid .EQUITY _ _ hnd hmem,
          sumBalancesOfType_update_mem accs ids cid .REVENUE _ _ hnd hmem,
          hacc]
        have hd := contribution_gap_diff cid a l
        simp only [hmem, and_true]
        by_cases hcid : a.companyId = cid
        · rw [if_pos hcid] at hd ⊢
          omega
        · rw [if_neg hcid] at hd ⊢
          omega
      · unfold equationGap
        rw [sumBalancesOfType_update_not_mem accs ids cid .ASSET _ _ hmem,
          sumBalancesOfType_update_not_mem accs ids cid .EXPENSE _ _ hmem,
          sumBalancesOfType_update_not_mem accs ids cid .LIABILITY _ _ hmem,
          sumBalancesOfType_update_not_mem accs ids cid .EQUITY _ _ hmem,
          sumBalancesOfType_update_not_mem accs ids cid .REVENUE _ _ hmem]
        simp [hmem]

/-- Posting a line set whose accounts all exist and belong to company
`ecid` moves company `cid`'s equation gap by `sumDebits − sumCredits`
when `ecid = cid`, and not at all otherwise. -/
theorem equationGap_applyLines (lines : List JournalLine)
    (accs : String → Option Account) (ids : List String) (cid ecid : String)
    (hnd : ids.Nodup)
    (hcov : ∀ aid a, accs aid = some a → a.companyId = cid → aid ∈ ids)
    (hall : ∀ l ∈ lines, ∃ a, accs l.accountId = some a ∧ a.companyId = ecid) :
    equationGap (applyLines accs lines) ids cid =
      equationGap accs ids cid +
        (if ecid = cid then sumDebits lines - sumCredits lines else 0) := by
  induction lines generalizing accs with
  | nil =>
      show equationGap accs ids cid = _
      rw [sumDebits_nil, sumCredits_nil]
      by_cases h : ecid = cid <;> simp [h]
  | cons l ls ih =>
      show equationGap (applyLines (applyLineDelta accs l) ls) ids cid = _
      obtain ⟨a, hacc, haco⟩ := hall l (List.mem_cons_self l ls)
      have hcov' : ∀ aid a, applyLineDelta accs l aid = some a →
          a.companyId = cid → aid ∈ ids := by
        intro aid a' ha' hc
        have hsingle : applyLineDelta accs l = applyLines accs [l] := rfl
        rw [hsingle] at ha'
        obtain ⟨a0, ha0, hco, _⟩ := applyLines_pres_inv [l] accs aid a' ha'
        exact hcov aid a0 ha0 (hco ▸ hc)
      have hall' : ∀ l' ∈ ls, ∃ a, applyLineDelta accs l l'.accountId = some a ∧
          a.companyId = ecid := by
        intro l' hl'
        obtain ⟨a0, ha0, hco⟩ := hall l' (List.mem_cons_of_mem l hl')
        have hsingle : applyLineDelta accs l = applyLines accs [l] := rfl
        rw [hsingle]
        obtain ⟨a', ha', hco', _⟩ := applyLines_pres_fwd [l] accs l'.accountId a0 ha0
        exact ⟨a', ha', hco'.trans hco⟩
      rw [ih (applyLineDelta accs l) hcov' hall',
        equationGap_applyLineDelta accs l ids cid hnd, hacc,
        sumDebits_cons, sumCredits_cons]
      dsimp only
      by_cases hec : ecid = cid
      · have hacid : a.companyId = cid := haco.trans hec
        have hmem : l.accountId ∈ ids := hcov l.accountId a hacc hacid
        rw [if_pos (And.intro hacid hmem), if_pos hec, if_pos hec]
        omega
      · have hnc : ¬ a.companyId = cid := fun hc => hec (haco.symm.trans hc)
        rw [if_neg (fun h : a.companyId = cid ∧ l.accountId ∈ ids => hnc h.1),
          if_neg hec, if_neg hec]
        omega

/-- Reversing a line set moves the equation gap the opposite way. -/
theorem equationGap_reverseLines (lines : List JournalLine)
    (accs : String → Option Account) (ids : List String) (cid ecid : String)
    (hnd : ids.Nodup)
    (hcov : ∀ aid a, accs aid = some a → a.companyId = cid → aid ∈ ids)
    (hall : ∀ l ∈ lines, ∃ a, accs l.accountId = some a ∧ a.companyId = ecid) :
    equationGap (reverseLines accs lines) ids cid =
      equationGap accs ids cid -
        (if ecid = cid then sumDebits lines - sumCredits lines else 0) := by
  rw [reverseLines_eq_swap]
  have hall' : ∀ l ∈ lines.map swapLine,
      ∃ a, accs l.accountId = some a ∧ a.companyId = ecid := by
    intro l hl
    obtain ⟨l0, hl0, rfl⟩ := List.mem_map.mp hl
    exact hall l0 hl0
  rw [equationGap_applyLines (lines.map swapLine) accs ids cid ecid hnd hcov hall',
    sumDebits_map_swap, sumCredits_map_swap]
  by_cases hec : ecid = cid
  · rw [if_pos hec, if_pos hec]
    omega
  · rw [if_neg hec, if_neg hec]
    omega

theorem accountBelongs_true_iff (accs : String → Option Account)
    (companyId aid : String) :
    accountBelongs accs companyId aid = true ↔
      ∃ a, accs aid = some a ∧ a.companyId = companyId := by
  unfold accountBelongs
  cases h : accs aid with
  | none => simp
  | some a => simp

/-- A clean account check certifies existence and ownership of every
line's account. -/
theorem checkAccounts_none_forall (accs : String → Option Account)
    (companyId : String) (lines : List JournalLine)
    (h : checkAccounts accs companyId lines = none) :
    ∀ l ∈ lines, ∃ a, accs l.accountId = some a ∧ a.companyId = companyId := by
  induction lines with
  | nil => intro l hl; cases hl
  | cons l ls ih =>
      intro l' hl'
      unfold checkAccounts at h
      by_cases hb : accountBelongs accs companyId l.accountId = true
      · rw [if_pos hb] at h
        cases List.mem_cons.mp hl' with
        | inl he => exact he ▸ (accountBelongs_true_iff accs companyId l.accountId).mp hb
        | inr hm => exact ih h l' hm
      · rw [if_neg hb] at h
        cases h

/-- Decomposition of a passing `validateLinesRest`: clean per-line checks,
difference within the epsilon, clean account checks. -/
theorem validateLinesRest_none (accs : String → Option Account)
    (companyId : String) (lines : List JournalLine)
    (h : validateLinesRest accs companyId lines = none) :
    checkLines lines = none ∧
      |sumDebits lines - sumCredits lines| ≤ balanceEpsilon ∧
      checkAccounts accs companyId lines = none := by
  unfold validateLinesRest at h
  cases hc : checkLines lines with
  | some e => rw [hc] at h; cases h
  | none =>
      rw [hc] at h
      by_cases hb : balanceEpsilon < |sumDebits lines - sumCredits lines|
      · rw [if_pos hb] at h; cases h
      · rw [if_neg hb] at h
        exact ⟨rfl, le_of_not_lt hb, h⟩

/-- Decomposition of a passing full POST validation. -/
theorem validateEntryLines_none (accs : String → Option Account)
    (companyId : String) (lines : List JournalLine)
    (h : validateEntryLines accs companyId lines = none) :
    2 ≤ lines.length ∧ validateLinesRest accs companyId lines = none := by
  unfold validateEntryLines at h
  by_cases hl : lines.length < 2
  · rw [if_pos hl] at h; cases h
  · rw [if_neg hl] at h
    exact ⟨le_of_not_lt hl, h⟩

/-- Inversion of a successful POST: validation passed and the result is
the create transaction applied to the input state, with the header's
`totalAmount` replaced by the computed debit total. -/
theorem postJournalEntry_ok_inv (s : StoreState) (newId : String)
    (entry : EntryRequest) (lines : List JournalLine) (s' : StoreState)
    (e' : JournalEntryRec)
    (h : postJournalEntry s newId entry lines = (s', .ok e')) :
    validateEntryLines s.accounts entry.companyId lines = none ∧
      s'.accounts = applyLines s.accounts lines ∧
      s'.entries = updateFun s.entries newId (some e') ∧
      s'.entryLines = updateFun s.entryLines newId lines ∧
      e'.companyId = entry.companyId ∧
      e'.totalAmount = sumDebits lines := by
  unfold postJournalEntry at h
  cases hv : validateEntryLines s.accounts entry.companyId lines with
  | some e =>
      rw [hv] at h
      cases congrArg Prod.snd h
  | none =>
      rw [hv] at h
      dsimp only at h
      have hs := congrArg Prod.fst h
      have he := Except.ok.inj (congrArg Prod.snd h)
      subst hs
      subst he
      exact ⟨rfl, rfl, rfl, rfl, rfl, rfl⟩

/-- Inversion of a successful PUT: the line count passed, the entry
exists, validation against its company passed, and the result is the
update transaction applied to the input state. -/
theorem putJournalEntry_ok_inv (s : StoreState) (id : String)
    (u : EntryUpdateRequest) (lines : List JournalLine) (s' : StoreState)
    (e' : JournalEntryRec)
    (h : putJournalEntry s id u lines = (s', .ok e')) :
    ∃ existingEntry,
      2 ≤ lines.length ∧
      s.entries id = some existingEntry ∧
      validateLinesRest s.accounts existingEntry.companyId lines = none ∧
      e' = applyEntryUpdates existingEntry u (sumDebits lines) ∧
      s'.accounts = applyLines (reverseLines s.accounts (s.entryLines id)) lines ∧
      s'.entries = updateFun s.entries id (some e') ∧
      s'.entryLines = updateFun s.entryLines id lines := by
  unfold putJournalEntry at h
  by_cases hl : lines.length < 2
  · rw [if_pos hl] at h
    cases congrArg Prod.snd h
  · rw [if_neg hl] at h
    cases hent : s.entries id with
    | none =>
        rw [hent] at h
        cases congrArg Prod.snd h
    | some ex =>
        rw [hent] at h
        dsimp only at h
        cases hv : validateLinesRest s.accounts ex.companyId lines with
        | some e =>
            rw [hv] at h
            cases congrArg Prod.snd h
        | none =>
            rw [hv] at h
            dsimp only at h
            unfold updateJournalEntry at h
            rw [hent] at h
            dsimp only at h
            have hs := congrArg Prod.fst h
            have he := Except.ok.inj (congrArg Prod.snd h)
            subst hs
            subst he
            exact ⟨ex, le_of_not_lt hl, rfl, hv, rfl, rfl, rfl, rfl⟩

/-- One exactly-balanced accepted operation preserves the ledger
invariant: the chart stays a chart, the accounting equation still holds,
and every stored entry stays balanced with valid accounts. -/
theorem ExactStep_preserves (ids : List String) (cid : String)
    (s s' : StoreState) (hinv : LedgerInvariant ids cid s)
    (hst : ExactStep s s') : LedgerInvariant ids cid s' := by
  obtain ⟨⟨hnd, hcov⟩, heq, hstored⟩ := hinv
  cases hst with
  | create newId entry lines e' hok hbal =>
      obtain ⟨hv, hacc, hent, hlns, hco, _⟩ :=
        postJournalEntry_ok_inv s newId entry lines s' e' hok
      obtain ⟨_, hrest⟩ := validateEntryLines_none _ _ _ hv
      obtain ⟨_, _, hchk⟩ := validateLinesRest_none _ _ _ hrest
      have hall : ∀ l ∈ lines,
          ∃ a, s.accounts l.accountId = some a ∧ a.companyId = entry.companyId :=
        checkAccounts_none_forall _ _ _ hchk
      refine ⟨⟨hnd, ?_⟩, ?_, ?_⟩
      · intro aid a ha hc
        rw [hacc] at ha
        obtain ⟨a0, ha0, hco0, _⟩ := applyLines_pres_inv lines s.accounts aid a ha
        exact hcov aid a0 ha0 (hco0 ▸ hc)
      · rw [accountingEquationHolds_iff_gap] at heq ⊢
        rw [hacc,
          equationGap_applyLines lines s.accounts ids cid entry.companyId hnd hcov hall,
          heq]
        by_cases hec : entry.companyId = cid
        · rw [if_pos hec]; omega
        · rw [if_neg hec]; omega
      · intro eid e he
        rw [hent] at he
        by_cases heid : eid = newId
        · subst heid
          rw [updateFun_same] at he
          rw [hlns, updateFun_same]
          refine ⟨hbal, ?_⟩
          intro l hl
          obtain ⟨a, ha, hco2⟩ := hall l hl
          obtain ⟨a', ha', hcoa, _⟩ :=
            applyLines_pres_fwd lines s.accounts l.accountId a ha
          refine ⟨a', by rw [hacc]; exact ha', ?_⟩
          rw [hcoa, hco2, ← hco, Option.some.inj he]
        · rw [updateFun_other _ _ _ _ heid] at he
          have hprev := hstored eid e he
          rw [hlns, updateFun_other _ _ _ _ heid]
          refine ⟨hprev.1, ?_⟩
          intro l hl
          obtain ⟨a, ha, hco2⟩ := hprev.2 l hl
          obtain ⟨a', ha', hcoa, _⟩ :=
            applyLines_pres_fwd lines s.accounts l.accountId a ha
          exact ⟨a', by rw [hacc]; exact ha', hcoa.trans hco2⟩
  | update id u lines e' hok hbal =>
      obtain ⟨ex, hlen, hent0, hrest, he', hacc, hent, hlns⟩ :=
        putJournalEntry_ok_inv s id u lines s' e' hok
      obtain ⟨_, _, hchk⟩ := validateLinesRest_none _ _ _ hrest
      have hallNew : ∀ l ∈ lines,
          ∃ a, s.accounts l.accountId = some a ∧ a.companyId = ex.companyId :=
        checkAccounts_none_forall _ _ _ hchk
      have hold := hstored id ex hent0
      have hcovR : ∀ aid a,
          reverseLines s.accounts (s.entryLines id) aid = some a →
          a.companyId = cid → aid ∈ ids := by
        intro aid a ha hc
        obtain ⟨a0, ha0, hco0, _⟩ := reverseLines_pres_inv _ _ _ _ ha
        exact hcov aid a0 ha0 (hco0 ▸ hc)
      have hallNewR : ∀ l ∈ lines,
          ∃ a, reverseLines s.accounts (s.entryLines id) l.accountId = some a ∧
            a.companyId = ex.companyId := by
        intro l hl
        obtain ⟨a0, ha0, hco0⟩ := hallNew l hl
        obtain ⟨a1, ha1, hcoa, _⟩ := reverseLines_pres_fwd _ _ _ _ ha0
        exact ⟨a1, ha1, hcoa.trans hco0⟩
      refine ⟨⟨hnd, ?_⟩, ?_, ?_⟩
      · intro aid a ha hc
        rw [hacc] at ha
        obtain ⟨a1, ha1, hco1, _⟩ := applyLines_pres_inv _ _ _ _ ha
        obtain ⟨a0, ha0, hco0, _⟩ := reverseLines_pres_inv _ _ _ _ ha1
        exact hcov aid a0 ha0 (hco0 ▸ hco1 ▸ hc)
      · rw [accountingEquationHolds_iff_gap] at heq ⊢
        rw [hacc,
          equationGap_applyLines lines _ ids cid ex.companyId hnd hcovR hallNewR,
          equationGap_reverseLines (s.entryLines id) s.accounts ids cid ex.companyId
            hnd hcov hold.2,
          heq]
        have hbalOld := hold.1
        by_cases hec : ex.companyId = cid
        · rw [if_pos hec, if_pos hec]; omega
        · rw [if_neg hec, if_neg hec]; omega
      · intro eid e he
        rw [hent] at he
        by_cases heid : eid = id
        · subst heid
          rw [updateFun_same] at he
          rw [hlns, updateFun_same]
          refine ⟨hbal, ?_⟩
          intro l hl
          obtain ⟨a0, ha0, hco0⟩ := hallNew l hl
          obtain ⟨a1, ha1, hco1, _⟩ := reverseLines_pres_fwd _ _ _ _ ha0
          obtain ⟨a2, ha2, hco2, _⟩ := applyLines_pres_fwd lines _ _ _ ha1
          refine ⟨a2, by rw [hacc]; exact ha2, ?_⟩
          rw [hco2, hco1, hco0, ← Option.some.inj he, he']
          rfl
        · rw [updateFun_other _ _ _ _ heid] at he
          have hprev := hstored eid e he
          rw [hlns, updateFun_other _ _ _ _ heid]
          refine ⟨hprev.1, ?_⟩
          intro l hl
          obtain ⟨a0, ha0, hco0⟩ := hprev.2 l hl
          obtain ⟨a1, ha1, hco1, _⟩ := reverseLines_pres_fwd _ _ _ _ ha0
          obtain ⟨a2, ha2, hco2, _⟩ := applyLines_pres_fwd _ _ _ _ ha1
          exact ⟨a2, by rw [hacc]; exact ha2, by rw [hco2, hco1, hco0]⟩

theorem checkLines_eq_of_first (lines : List JournalLine) (i : Nat)
    (hi : i < lines.length) (e : EntryError)
    (he : checkLine (lines.get ⟨i, hi⟩) = some e)
    (hprev : ∀ j (hj : j < lines.length), j < i →
      checkLine (lines.get ⟨j, hj⟩) = none) :
    checkLines lines = some e := by
  induction lines generalizing i with
  | nil => exact absurd hi (Nat.not_lt_zero i)
  | cons l ls ih =>
      cases i with
      | zero =>
          unfold checkLines
          rw [show checkLine l = some e from he]
      | succ k =>
          have h0 : checkLine l = none :=
            hprev 0 (Nat.succ_pos ls.length) (Nat.succ_pos k)
          unfold checkLines
          rw [h0]
          have hk : k < ls.length := Nat.lt_of_succ_lt_succ hi
          exact ih k hk he
            (fun j hj hjk => hprev (j + 1) (Nat.succ_lt_succ hj) (Nat.succ_lt_succ hjk))

/-- C1: for every account and every posted line the balance delta follows
the directional rule — `balance + debit − credit` for ASSET and EXPENSE,
`balance + credit − debit` for LIABILITY, EQUITY and REVENUE — both as
the shared formula `calculateAccountBalance` and as the write performed by
the posting loop; in particular an ASSET account at 100.00 becomes 150.00
after debit 50.00 and 70.00 after credit 30.00, and a LIABILITY account at
100.00 becomes 150.00 after credit 50.00 and 70.00 after debit 30.00
(amounts in cents). -/
theorem calculateAccountBalance_directional_rule :
    (∀ b d c : Int,
      calculateAccountBalance b .ASSET d c = b + d - c ∧
      calculateAccountBalance b .EXPENSE d c = b + d - c ∧
      calculateAccountBalance b .LIABILITY d c = b + c - d ∧
      calculateAccountBalance b .EQUITY d c = b + c - d ∧
      calculateAccountBalance b .REVENUE d c = b + c - d) ∧
    (∀ (accs : String → Option Account) (l : JournalLine) (a : Account),
      accs l.accountId = some a →
      applyLineDelta accs l l.accountId =
        some { a with balance :=
          calculateAccountBalance a.balance a.type l.debitAmount l.creditAmount }) ∧
    calculateAccountBalance 10000 .ASSET 5000 0 = 15000 ∧
    calculateAccountBalance 10000 .ASSET 0 3000 = 7000 ∧
    calculateAccountBalance 10000 .LIABILITY 0 5000 = 15000 ∧
    calculateAccountBalance 10000 .LIABILITY 3000 0 = 7000 := by
  refine ⟨?_, ?_, by decide, by decide, by decide, by decide⟩
  · intro b d c
    refine ⟨?_, ?_, ?_, ?_, ?_⟩ <;> simp [calculateAccountBalance, isDebitNormal]
  · intro accs l a h
    rw [applyLineDelta_of_some _ _ _ h, updateFun_same]

/-- Witness for C1 at a concrete ASSET account and debit line. -/
theorem calculateAccountBalance_directional_rule_witness :
    sampleAccounts "cash" = some cashAccount ∧
    applyLineDelta sampleAccounts (mkLine "cash" 5000 0) "cash" =
      some { cashAccount with balance :=
        calculateAccountBalance cashAccount.balance cashAccount.type 5000 0 } := by
  refine ⟨rfl, ?_⟩
  exact calculateAccountBalance_directional_rule.2.1 sampleAccounts
    (mkLine "cash" 5000 0) cashAccount rfl

/-- C2: updating a just-created entry first reverses each stored line's
effect (debit/credit roles swapped in the directional formula) and then
applies the replacement lines' forward deltas; consequently every
account's balance ends at its pre-entry value plus the net delta of the
replacement lines, and exactly at its pre-entry value — bit for bit —
when that net delta is zero. -/
theorem updateJournalEntry_reversibility :
    ∀ (s : StoreState) (newId : String) (entry : JournalEntryRec)
      (lines : List JournalLine) (u : EntryUpdateRequest) (tot : Int)
      (newLines : List JournalLine) (aid : String) (a : Account),
      s.accounts aid = some a →
      ∃ s2 e2,
        updateJournalEntry (createJournalEntry s newId entry lines).1 newId u tot
          newLines = .ok (s2, e2) ∧
        s2.accounts aid =
          some { a with balance := a.balance + netDelta a.type aid newLines } ∧
        (netDelta a.type aid newLines = 0 → s2.accounts aid = some a) := by
  intro s newId entry lines u tot newLines aid a h
  have hent : (createJournalEntry s newId entry lines).1.entries newId =
      some { entry with id := newId } := updateFun_same _ _ _
  have hupd : updateJournalEntry (createJournalEntry s newId entry lines).1 newId
      u tot newLines =
      .ok ({ accounts := applyLines
               (reverseLines (createJournalEntry s newId entry lines).1.accounts
                 ((createJournalEntry s newId entry lines).1.entryLines newId))
               newLines
             entries := updateFun (createJournalEntry s newId entry lines).1.entries
               newId (some (applyEntryUpdates { entry with id := newId } u tot))
             entryLines := updateFun
               (createJournalEntry s newId entry lines).1.entryLines newId newLines },
           applyEntryUpdates { entry with id := newId } u tot) := by
    unfold updateJournalEntry
    rw [hent]
  have hlines : (createJournalEntry s newId entry lines).1.entryLines newId =
      lines := updateFun_same _ _ _
  have h1 : (createJournalEntry s newId entry lines).1.accounts aid =
      some { a with balance := a.balance + netDelta a.type aid lines } :=
    applyLines_some lines s.accounts aid a h
  have h2 : reverseLines (createJournalEntry s newId entry lines).1.accounts
      lines aid = some a := by
    rw [reverseLines_some lines _ aid _ h1]
    simp
  have hfinal : applyLines
      (reverseLines (createJournalEntry s newId entry lines).1.accounts
        ((createJournalEntry s newId entry lines).1.entryLines newId))
      newLines aid =
      some { a with balance := a.balance + netDelta a.type aid newLines } := by
    rw [hlines]
    exact applyLines_some newLines _ aid a h2
  refine ⟨_, _, hupd, hfinal, ?_⟩
  intro h0
  have h' := hfinal
  rw [h0, add_zero] at h'
  exact h'

/-- Witness for C2: post 1000.00 from Cash to Revenue, then replace the
entry by two lines on Cash with zero net effect; Cash returns to exactly
its prior record. -/
theorem updateJournalEntry_reversibility_witness :
    sampleState.accounts "cash" = some cashAccount ∧
    ∃ s2 e2,
      updateJournalEntry
        (createJournalEntry sampleState "e1" sampleEntryRec
          [mkLine "cash" 100000 0, mkLine "rev" 0 100000]).1
        "e1" noHeaderUpdates 0 [mkLine "cash" 500 0, mkLine "cash" 0 500] =
        .ok (s2, e2) ∧
      s2.accounts "cash" = some cashAccount := by
  refine ⟨rfl, ?_⟩
  obtain ⟨s2, e2, h1, _, h3⟩ :=
    updateJournalEntry_reversibility sampleState "e1" sampleEntryRec
      [mkLine "cash" 100000 0, mkLine "rev" 0 100000] noHeaderUpdates 0
      [mkLine "cash" 500 0, mkLine "cash" 0 500] "cash" cashAccount rfl
  exact ⟨s2, e2, h1, h3 (by decide)⟩

/-- C3: a candidate entry that fails validation — too few lines, a
negative amount, an ambiguous or empty line, an unbalanced total, or an
unknown/cross-company account — makes the Create handler return the
validation error with the store untouched: no entry row, no line rows, no
balance change, whatever the number of lines. -/
theorem postJournalEntry_rejects_without_mutation :
    (∀ (s : StoreState) (newId : String) (entry : EntryRequest)
       (lines : List JournalLine) (e : EntryError),
       validateEntryLines s.accounts entry.companyId lines = some e →
       postJournalEntry s newId entry lines = (s, .error e)) ∧
    (∀ (accs : String → Option Account) (companyId : String)
       (lines : List JournalLine),
       lines.length < 2 →
       validateEntryLines accs companyId lines = some .tooFewLines) := by
  constructor
  · intro s newId entry lines e hv
    unfold postJournalEntry
    rw [hv]
  · intro accs companyId lines hl
    unfold validateEntryLines
    rw [if_pos hl]

/-- Witness for C3 at a concrete unbalanced candidate (100.00 vs 99.00). -/
theorem postJournalEntry_rejects_without_mutation_witness :
    validateEntryLines sampleState.accounts sampleRequest.companyId
      [mkLine "cash" 10000 0, mkLine "rev" 0 9900] =
      some (.unbalanced 10000 9900) ∧
    postJournalEntry sampleState "e9" sampleRequest
      [mkLine "cash" 10000 0, mkLine "rev" 0 9900] =
      (sampleState, .error (.unbalanced 10000 9900)) := by
  have hv : validateEntryLines sampleState.accounts sampleRequest.companyId
      [mkLine "cash" 10000 0, mkLine "rev" 0 9900] =
      some (.unbalanced 10000 9900) := by decide
  exact ⟨hv, postJournalEntry_rejects_without_mutation.1 sampleState "e9"
    sampleRequest _ _ hv⟩

/-- C8 counterexample: an Update call against a nonexistent entry id whose
payload has a single line fails with the zod line-count error, not with
NotFound — the payload parse runs before the existence check. -/
theorem put_nonexistent_tooFewLines_cex :
    putJournalEntry emptyState "ghost" noHeaderUpdates [mkLine "cash" 100 0] =
      (emptyState, .error .tooFewLines) ∧
    EntryError.tooFewLines ≠ EntryError.notFound := by
  exact ⟨rfl, by decide⟩

/-- C8 amended: an Update call against a nonexistent entry id whose
payload parses (at least 2 lines) fails with NotFound, and every such
rejection — NotFound or parse error — leaves the store untouched. -/
theorem put_nonexistent_notFound :
    ∀ (s : StoreState) (id : String) (u : EntryUpdateRequest)
      (lines : List JournalLine),
      2 ≤ lines.length → s.entries id = none →
      putJournalEntry s id u lines = (s, .error .notFound) := by
  intro s id u lines hl hid
  unfold putJournalEntry
  rw [if_neg (by omega), hid]

/-- Witness for C8 on the empty store. -/
theorem put_nonexistent_notFound_witness :
    2 ≤ ([mkLine "cash" 100 0, mkLine "rev" 0 100] : List JournalLine).length ∧
    emptyState.entries "ghost" = none ∧
    putJournalEntry emptyState "ghost" noHeaderUpdates
      [mkLine "cash" 100 0, mkLine "rev" 0 100] =
      (emptyState, .error .notFound) := by
  exact ⟨by decide, rfl,
    put_nonexistent_notFound emptyState "ghost" noHeaderUpdates _ (by decide) rfl⟩

/-- C9 counterexample: a candidate whose first line is ambiguous and whose
second line carries a negative amount is rejected with AmbiguousLine, not
NegativeAmount — the three per-line checks are interleaved per line, not
run rule-by-rule over all lines. -/
theorem validation_order_cex :
    validateEntryLines emptyState.accounts "c1"
      [mkLine "x" 500 500, mkLine "y" (-100) 0] = some .ambiguousLine ∧
    EntryError.ambiguousLine ≠ EntryError.negativeAmount := by
  exact ⟨by decide, by decide⟩

/-- C9 amended: validation scans lines in order; for each line it checks
negative, then ambiguous, then empty, and the first violating line (under
this within-line priority) decides the error, before the balance and
account checks are ever consulted. -/
theorem validation_first_line_violation_wins :
    (∀ (accs : String → Option Account) (companyId : String)
       (lines : List JournalLine) (i : Nat) (hi : i < lines.length)
       (e : EntryError),
       2 ≤ lines.length →
       checkLine (lines.get ⟨i, hi⟩) = some e →
       (∀ j (hj : j < lines.length), j < i →
         checkLine (lines.get ⟨j, hj⟩) = none) →
       validateEntryLines accs companyId lines = some e) ∧
    (∀ l : JournalLine, (l.debitAmount < 0 ∨ l.creditAmount < 0) →
       checkLine l = some .negativeAmount) ∧
    (∀ l : JournalLine, ¬(l.debitAmount < 0 ∨ l.creditAmount < 0) →
       0 < l.debitAmount → 0 < l.creditAmount →
       checkLine l = some .ambiguousLine) := by
  refine ⟨?_, ?_, ?_⟩
  · intro accs companyId lines i hi e h2 he hprev
    unfold validateEntryLines
    rw [if_neg (by omega)]
    unfold validateLinesRest
    rw [checkLines_eq_of_first lines i hi e he hprev]
  · intro l h
    unfold checkLine
    rw [if_pos h]
  · intro l h hd hc
    unfold checkLine
    rw [if_neg h, if_pos (And.intro hd hc)]

/-- Witness for C9: the negative line at index 1 is reported when line 0
is clean. -/
theorem validation_first_line_violation_wins_witness :
    validateEntryLines emptyState.accounts "c1"
      [mkLine "cash" 100 0, mkLine "rev" (-100) 0] = some .negativeAmount := by
  exact validation_first_line_violation_wins.1 emptyState.accounts "c1"
    [mkLine "cash" 100 0, mkLine "rev" (-100) 0] 1 (by decide)
    EntryError.negativeAmount (by decide) (by decide)
    (fun j hj hj1 => by
      have hj0 : j = 0 := by omega
      subst hj0
      show checkLine (mkLine "cash" 100 0) = none
      decide)

/-- C4 counterexample: the Create handler accepts a 0.03-debit /
0.02-credit candidate (difference 0.01, inside the `> 0.01` rejection
threshold) and commits it; the committed entry's debit and credit sums
are 3 and 2 cents — not equal post-rounding. -/
theorem committed_entry_epsilon_imbalance_cex :
    (∃ e', (postJournalEntry zeroState "e1" sampleRequest
      [mkLine "cash" 3 0, mkLine "rev" 0 2]).2 = .ok e') ∧
    sumDebits ((postJournalEntry zeroState "e1" sampleRequest
      [mkLine "cash" 3 0, mkLine "rev" 0 2]).1.entryLines "e1") = 3 ∧
    sumCredits ((postJournalEntry zeroState "e1" sampleRequest
      [mkLine "cash" 3 0, mkLine "rev" 0 2]).1.entryLines "e1") = 2 ∧
    (3 : Int) ≠ 2 := by
  refine ⟨⟨_, rfl⟩, by decide, by decide, by decide⟩

/-- C4 amended: every committed entry (by Create or Update) has debit and
credit sums equal within the ±0.01 acceptance epsilon — but only within
it, not exactly. -/
theorem committed_entry_sums_within_epsilon :
    (∀ (s : StoreState) (newId : String) (entry : EntryRequest)
       (lines : List JournalLine) (s' : StoreState) (e' : JournalEntryRec),
       postJournalEntry s newId entry lines = (s', .ok e') →
       |sumDebits (s'.entryLines newId) - sumCredits (s'.entryLines newId)| ≤
         balanceEpsilon) ∧
    (∀ (s : StoreState) (id : String) (u : EntryUpdateRequest)
       (lines : List JournalLine) (s' : StoreState) (e' : JournalEntryRec),
       putJournalEntry s id u lines = (s', .ok e') →
       |sumDebits (s'.entryLines id) - sumCredits (s'.entryLines id)| ≤
         balanceEpsilon) := by
  constructor
  · intro s newId entry lines s' e' h
    obtain ⟨hv, _, _, hlns, _, _⟩ := postJournalEntry_ok_inv s newId entry lines s' e' h
    obtain ⟨_, hrest⟩ := validateEntryLines_none _ _ _ hv
    obtain ⟨_, hbal, _⟩ := validateLinesRest_none _ _ _ hrest
    rw [hlns, updateFun_same]
    exact hbal
  · intro s id u lines s' e' h
    obtain ⟨ex, _, _, hrest, _, _, _, hlns⟩ := putJournalEntry_ok_inv s id u lines s' e' h
    obtain ⟨_, hbal, _⟩ := validateLinesRest_none _ _ _ hrest
    rw [hlns, updateFun_same]
    exact hbal

/-- Witness for C4's amended bound at a concrete balanced create. -/
theorem committed_entry_sums_within_epsilon_witness :
    (∃ e', postJournalEntry sampleState "e1" sampleRequest
      [mkLine "cash" 100000 0, mkLine "rev" 0 100000] =
      ((postJournalEntry sampleState "e1" sampleRequest
        [mkLine "cash" 100000 0, mkLine "rev" 0 100000]).1, .ok e')) ∧
    |sumDebits (((postJournalEntry sampleState "e1" sampleRequest
        [mkLine "cash" 100000 0, mkLine "rev" 0 100000]).1).entryLines "e1") -
      sumCredits (((postJournalEntry sampleState "e1" sampleRequest
        [mkLine "cash" 100000 0, mkLine "rev" 0 100000]).1).entryLines "e1")| ≤
      balanceEpsilon := by
  refine ⟨⟨_, rfl⟩, ?_⟩
  exact committed_entry_sums_within_epsilon.1 sampleState "e1" sampleRequest
    [mkLine "cash" 100000 0, mkLine "rev" 0 100000] _ _ rfl

/-- C6 counterexample: an accepted 0.06/0.05 create stores
`totalAmount = 6` (the debit sum), but the credit sum is 5 — the stored
total does not equal the sum of credits. -/
theorem totalAmount_credit_mismatch_cex :
    (∃ e', (postJournalEntry zeroState "e6" sampleRequest
        [mkLine "cash" 6 0, mkLine "rev" 0 5]).2 = .ok e' ∧
      e'.totalAmount = 6) ∧
    sumCredits [mkLine "cash" 6 0, mkLine "rev" 0 5] = 5 ∧
    sampleRequest.totalAmount = 999 ∧
    (6 : Int) ≠ 5 := by
  refine ⟨⟨_, rfl, by decide⟩, by decide, by decide, by decide⟩

/-- C6 amended: the persisted entry's `totalAmount` is the server-computed
sum of the lines' debit amounts, overriding whatever total the caller
supplied; that sum equals the credit sum only within the ±0.01 acceptance
epsilon, not exactly. -/
theorem totalAmount_eq_sumDebits :
    (∀ (s : StoreState) (newId : String) (entry : EntryRequest)
       (lines : List JournalLine) (s' : StoreState) (e' : JournalEntryRec),
       postJournalEntry s newId entry lines = (s', .ok e') →
       e'.totalAmount = sumDebits lines ∧
       s'.entries newId = some e' ∧
       |sumDebits lines - sumCredits lines| ≤ balanceEpsilon) ∧
    (∀ (s : StoreState) (id : String) (u : EntryUpdateRequest)
       (lines : List JournalLine) (s' : StoreState) (e' : JournalEntryRec),
       putJournalEntry s id u lines = (s', .ok e') →
       e'.totalAmount = sumDebits lines ∧
       s'.entries id = some e' ∧
       |sumDebits lines - sumCredits lines| ≤ balanceEpsilon) := by
  constructor
  · intro s newId entry lines s' e' h
    obtain ⟨hv, _, hent, _, _, htot⟩ := postJournalEntry_ok_inv s newId entry lines s' e' h
    obtain ⟨_, hrest⟩ := validateEntryLines_none _ _ _ hv
    obtain ⟨_, hbal, _⟩ := validateLinesRest_none _ _ _ hrest
    exact ⟨htot, by rw [hent, updateFun_same], hbal⟩
  · intro s id u lines s' e' h
    obtain ⟨ex, _, _, hrest, he', _, hent, _⟩ := putJournalEntry_ok_inv s id u lines s' e' h
    obtain ⟨_, hbal, _⟩ := validateLinesRest_none _ _ _ hrest
    refine ⟨?_, by rw [hent, updateFun_same], hbal⟩
    rw [he']
    rfl

/-- Witness for C6 at a concrete accepted create whose caller-supplied
total (999) differs from the computed debit sum (2500). -/
theorem totalAmount_eq_sumDebits_witness :
    ∃ e', postJournalEntry sampleState "e2" sampleRequest
        [mkLine "cash" 2500 0, mkLine "loan" 0 2500] =
        ((postJournalEntry sampleState "e2" sampleRequest
          [mkLine "cash" 2500 0, mkLine "loan" 0 2500]).1, .ok e') ∧
      e'.totalAmount = sumDebits [mkLine "cash" 2500 0, mkLine "loan" 0 2500] := by
  refine ⟨_, rfl, ?_⟩
  exact (totalAmount_eq_sumDebits.1 sampleState "e2" sampleRequest _ _ _ rfl).1

/-- C7 counterexample: the generic account-update operation writes the
balance field directly.  `insertAccountSchema.partial()` does not exclude
`balance`, and `updateAccount` stores any supplied value: an account at
balance 0 in a store with no journal entries (net posted deltas 0) ends at
999 after `PUT /api/accounts/cash` with `{ balance: "9.99" }`. -/
theorem updateAccount_writes_balance_cex :
    zeroState.accounts "cash" = some zeroCash ∧
    zeroCash.balance = 0 ∧
    (updateAccount zeroState "cash" balancePatch).accounts "cash" =
      some { zeroCash with balance := 999 } ∧
    (999 : Int) ≠ 0 := by
  exact ⟨rfl, rfl, rfl, by decide⟩

/-- C7 amended: balances are written by the posting loops, and
additionally by the generic account update whenever the patch carries a
`balance` field; a patch without one leaves the balance unchanged. -/
theorem updateAccount_balance_writable :
    ∀ (s : StoreState) (id : String) (u : AccountUpdateRequest) (a : Account),
      s.accounts id = some a →
      (updateAccount s id u).accounts id = some (applyAccountUpdates a u) ∧
      (∀ b, u.balance = some b → (applyAccountUpdates a u).balance = b) ∧
      (u.balance = none → (applyAccountUpdates a u).balance = a.balance) := by
  intro s id u a h
  refine ⟨?_, ?_, ?_⟩
  · unfold updateAccount
    rw [h]
    exact updateFun_same _ _ _
  · intro b hb
    show u.balance.getD a.balance = b
    rw [hb]
    rfl
  · intro hb
    show u.balance.getD a.balance = a.balance
    rw [hb]
    rfl

/-- Witness for C7's amended claim at the sample chart. -/
theorem updateAccount_balance_writable_witness :
    sampleState.accounts "cash" = some cashAccount ∧
    (updateAccount sampleState "cash" balancePatch).accounts "cash" =
      some (applyAccountUpdates cashAccount balancePatch) ∧
    (applyAccountUpdates cashAccount balancePatch).balance = 999 := by
  obtain ⟨h1, h2, _⟩ :=
    updateAccount_balance_writable sampleState "cash" balancePatch cashAccount rfl
  exact ⟨rfl, h1, h2 999 rfl⟩

/-- C5 counterexample: from company c1's initial zero balances, a single
accepted Create (debit 0.02 on cash, credit 0.01 on revenue — inside the
±0.01 acceptance epsilon) produces a state where assets total 2 cents but
liabilities + equity + revenue − expenses total 1 cent: the accounting
equation fails after a sequence of accepted operations. -/
theorem accounting_equation_violated_cex :
    accountingEquationHolds zeroState.accounts ["cash", "rev"] "c1" ∧
    AcceptedStep zeroState
      (postJournalEntry zeroState "e5" sampleRequest
        [mkLine "cash" 2 0, mkLine "rev" 0 1]).1 ∧
    ¬ accountingEquationHolds
      (postJournalEntry zeroState "e5" sampleRequest
        [mkLine "cash" 2 0, mkLine "rev" 0 1]).1.accounts ["cash", "rev"] "c1" := by
  refine ⟨by unfold accountingEquationHolds; decide, ?_, ?_⟩
  · exact AcceptedStep.create zeroState _ "e5" sampleRequest
      [mkLine "cash" 2 0, mkLine "rev" 0 1] _ rfl
  · unfold accountingEquationHolds
    decide

/-- C5 amended: from any state satisfying the ledger invariant — in
particular a company's initial all-zero balances — the accounting
equation `assets = liabilities + equity + revenue − expenses` holds after
every sequence of accepted Create/Update operations whose line sets are
exactly balanced (the acceptance epsilon otherwise lets a 0.01 imbalance
through, breaking the equation). -/
theorem accounting_equation_preserved :
    ∀ (ids : List String) (cid : String) (s0 s1 : StoreState),
      LedgerInvariant ids cid s0 →
      Relation.ReflTransGen ExactStep s0 s1 →
      accountingEquationHolds s1.accounts ids cid := by
  intro ids cid s0 s1 hinv hchain
  suffices h : LedgerInvariant ids cid s1 by exact h.2.1
  induction hchain with
  | refl => exact hinv
  | tail hst hstep ih => exact ExactStep_preserves ids cid _ _ ih hstep

/-- Witness for C5: the invariant holds at the initial zero store and the
equation is preserved along the empty sequence. -/
theorem accounting_equation_preserved_witness :
    LedgerInvariant ["cash", "rev"] "c1" zeroState ∧
    accountingEquationHolds zeroState.accounts ["cash", "rev"] "c1" := by
  have hinv : LedgerInvariant ["cash", "rev"] "c1" zeroState := by
    refine ⟨⟨by decide, ?_⟩, ?_, ?_⟩
    · intro aid a ha hc
      by_cases h1 : aid = "cash"
      · subst h1; simp
      · by_cases h2 : aid = "rev"
        · subst h2; simp
        · have ha' : (if aid = "cash" then some zeroCash
              else if aid = "rev" then some zeroRev else none) = some a := ha
          rw [if_neg h1, if_neg h2] at ha'
          cases ha'
    · unfold accountingEquationHolds
      decide
    · intro eid e he
      exact Option.noConfusion he
  exact ⟨hinv, accounting_equation_preserved ["cash", "rev"] "c1" zeroState
    zeroState hinv Relation.ReflTransGen.refl⟩

/-- C10 counterexample: a direct storage-layer create whose second line
names the nonexistent account "ghost" does not succeed: the
`journal_entry_lines.account_id` foreign key aborts the transaction at
the line insert, the foreign-key error is surfaced, and the store is
returned untouched — no entry row, no line rows, no balance change. -/
theorem createJournalEntryTx_unknown_account_cex :
    sampleState.accounts "ghost" = none ∧
    createJournalEntryTx sampleState "e1" sampleEntryRec
      [mkLine "cash" 100 0, mkLine "ghost" 0 100] =
      (sampleState,
       .error "violates foreign key constraint journal_entry_lines_account_id_fkey") ∧
    sampleState.entries "e1" = none ∧
    sampleState.entryLines "e1" = [] := by
  exact ⟨rfl, rfl, rfl, rfl⟩

/-- C10 amended: a direct call to the storage-layer `createJournalEntry`
(or to `updateJournalEntry` with such replacement lines) containing a
line whose accountId matches no stored account fails with the
`journal_entry_lines.account_id` foreign-key violation and persists
nothing — it does not succeed with the delta silently skipped; the
`if (account)` skip is unreachable for missing accounts, and when every
line's account exists the transaction commits with the usual posting
semantics. -/
theorem createJournalEntryTx_fk_behavior :
    (∀ (s : StoreState) (newId : String) (entry : JournalEntryRec)
       (lines : List JournalLine) (l : JournalLine),
       l ∈ lines → s.accounts l.accountId = none →
       createJournalEntryTx s newId entry lines =
         (s, .error "violates foreign key constraint journal_entry_lines_account_id_fkey")) ∧
    (∀ (s : StoreState) (newId : String) (entry : JournalEntryRec)
       (lines : List JournalLine),
       (∀ l ∈ lines, (s.accounts l.accountId).isSome = true) →
       createJournalEntryTx s newId entry lines =
         ((createJournalEntry s newId entry lines).1,
          .ok (createJournalEntry s newId entry lines).2)) ∧
    (∀ (s : StoreState) (id : String) (u : EntryUpdateRequest) (tot : Int)
       (newLines : List JournalLine) (l : JournalLine) (e0 : JournalEntryRec),
       s.entries id = some e0 → l ∈ newLines → s.accounts l.accountId = none →
       updateJournalEntryTx s id u tot newLines =
         (s, .error "violates foreign key constraint journal_entry_lines_account_id_fkey")) := by
  refine ⟨?_, ?_, ?_⟩
  · intro s newId entry lines l hl hnone
    have hfk : linesSatisfyFK s.accounts lines = false := by
      apply Bool.eq_false_iff.mpr
      intro hall
      unfold linesSatisfyFK at hall
      rw [List.all_eq_true] at hall
      have hsome := hall l hl
      rw [hnone] at hsome
      simp at hsome
    unfold createJournalEntryTx
    rw [hfk]
    rfl
  · intro s newId entry lines hall
    have hfk : linesSatisfyFK s.accounts lines = true := by
      unfold linesSatisfyFK
      rw [List.all_eq_true]
      exact hall
    unfold createJournalEntryTx
    rw [hfk]
    rfl
  · intro s id u tot newLines l e0 hent hl hnone
    have hfk : linesSatisfyFK s.accounts newLines = false := by
      apply Bool.eq_false_iff.mpr
      intro hall
      unfold linesSatisfyFK at hall
      rw [List.all_eq_true] at hall
      have hsome := hall l hl
      rw [hnone] at hsome
      simp at hsome
    unfold updateJournalEntryTx
    rw [hent]
    dsimp only
    rw [hfk]
    rfl

/-- Witness for C10's amended claim: the ghost line aborts a concrete
direct create, and the same lines with both accounts known commit. -/
theorem createJournalEntryTx_fk_behavior_witness :
    sampleState.accounts "ghost" = none ∧
    createJournalEntryTx sampleState "e2" sampleEntryRec
      [mkLine "cash" 100 0, mkLine "ghost" 0 100] =
      (sampleState,
       .error "violates foreign key constraint journal_entry_lines_account_id_fkey") ∧
    createJournalEntryTx sampleState "e2" sampleEntryRec
      [mkLine "cash" 100 0, mkLine "rev" 0 100] =
      ((createJournalEntry sampleState "e2" sampleEntryRec
        [mkLine "cash" 100 0, mkLine "rev" 0 100]).1,
       .ok (createJournalEntry sampleState "e2" sampleEntryRec
        [mkLine "cash" 100 0, mkLine "rev" 0 100]).2) := by
  refine ⟨rfl, ?_, ?_⟩
  · exact createJournalEntryTx_fk_behavior.1 sampleState "e2" sampleEntryRec
      [mkLine "cash" 100 0, mkLine "ghost" 0 100] (mkLine "ghost" 0 100)
      (by simp) rfl
  · exact createJournalEntryTx_fk_behavior.2.1 sampleState "e2" sampleEntryRec
      [mkLine "cash" 100 0, mkLine "rev" 0 100] (by decide)
